import Mathlib

/-!
Verification of the SNPedia/23andMe annotation pipeline
(`snpedia-23andme.py`): the wikitext annotation parser
(`read_snpedia`), the orientation normalizer (`switch_orientation`),
the match collector (`test_and_store_genotype`), the tiered cache
lookup loop of `__main__`, and the final magnitude sort.

Strings are embedded as `List Char`; Python 2 `str` is ASCII here.
A Python function that can raise an exception is embedded as an
`Option`-returning function, `none` standing for the raised exception.
Each of the regular expressions used by the source is embedded as a
deterministic scanner: for these particular patterns greedy/lazy
backtracking never changes the outcome (every quantified class is
followed by a literal the class cannot match), so the scanners below
compute exactly the Python `re` results.
-/

namespace Snpedia

/-- Python 2 `\w` (no re.UNICODE): ASCII letter, digit or underscore. -/
def isWordChar (c : Char) : Bool := c.isAlpha || c.isDigit || c = '_'

/-- Python 2 `\s`: the six ASCII whitespace characters. -/
def isSpaceChar (c : Char) : Bool :=
  c = ' ' || c = '\t' || c = '\n' || c = '\x0b' || c = '\x0c' || c = '\r'

/-- The four DNA bases accepted by the row pattern class `[ATCG]`. -/
def isBase (c : Char) : Bool := c = 'A' || c = 'T' || c = 'C' || c = 'G'

/-- Match a literal at the head of the input; return the rest on success. -/
def dropLit : List Char → List Char → Option (List Char)
  | [], l => some l
  | _ :: _, [] => none
  | p :: ps, c :: cs => if c = p then dropLit ps cs else none

/-- Greedy `\s*`. -/
def skipSpaces (l : List Char) : List Char := l.dropWhile isSpaceChar

/-- One attempt of `LIT(ok+)\]\]` at the current position
(the shape of the `[[Orientation::(\w+)]]` and `[[Max Magnitude::(\d+)]]`
patterns); returns the captured group. -/
def fieldAt (lit : List Char) (ok : Char → Bool) (l : List Char) :
    Option (List Char) :=
  match dropLit lit l with
  | none => none
  | some r =>
    match dropLit [']', ']'] (r.dropWhile ok) with
    | none => none
    | some _ => if (r.takeWhile ok).isEmpty then none else some (r.takeWhile ok)

/-- `re.search` for `LIT(ok+)\]\]`: leftmost position at which the whole
pattern matches, returning the captured group. -/
def searchField (lit : List Char) (ok : Char → Bool) : List Char → Option (List Char)
  | [] => none
  | c :: cs =>
    match fieldAt lit ok (c :: cs) with
    | some w => some w
    | none => searchField lit ok cs

/-- Split at the first occurrence of a literal: text before it and text
after it (`.*?LIT` with DOTALL). -/
def splitOcc (pat : List Char) : List Char → Option (List Char × List Char)
  | [] =>
    match dropLit pat [] with
    | some r => some ([], r)
    | none => none
  | c :: cs =>
    match dropLit pat (c :: cs) with
    | some r => some ([], r)
    | none =>
      match splitOcc pat cs with
      | some (pre, post) => some (c :: pre, post)
      | none => none

def headerLit : List Char := ("[[Magnitude|Mag]]").data

/-- One attempt of the table-header pattern
`\[\[Magnitude\|Mag\]\] .+? \|- \s*` (VERBOSE strips the spaces;
DOTALL makes `.` match newlines; `.+?` is one-or-more, minimal).
Returns the input remaining after the match end. -/
def headerAt (l : List Char) : Option (List Char) :=
  match dropLit headerLit l with
  | none => none
  | some r =>
    match r with
    | [] => none
    | _ :: t =>
      match splitOcc ['|', '-'] t with
      | none => none
      | some (_, post) => some (skipSpaces post)

/-- `re.search` of the table-header pattern: leftmost match, remaining text. -/
def searchHeader : List Char → Option (List Char)
  | [] => none
  | c :: cs =>
    match headerAt (c :: cs) with
    | some rest => some rest
    | none => searchHeader cs

/-- The four captures of one genotype-table row. -/
structure RowMatch where
  variant : List Char
  genotype : List Char
  magnitude : List Char
  comment : List Char
deriving DecidableEq

/-- One `\s*\w+=\"[^\"]*\"` attribute unit of the row pattern. -/
def attrUnit (l : List Char) : Option (List Char) :=
  let r := skipSpaces l
  if (r.takeWhile isWordChar).isEmpty then none
  else
    match dropLit ['=', '"'] (r.dropWhile isWordChar) with
    | none => none
    | some r2 => dropLit ['"'] (r2.dropWhile (fun c => c ≠ '"'))

/-- Greedy `(?:\s*\w+=\"[^\"]*\")*`: consume attribute units while they
match. Each unit consumes at least four characters, so fuel equal to
the input length never runs out. -/
def skipAttrs : Nat → List Char → List Char
  | 0, l => l
  | fuel + 1, l =>
    match attrUnit l with
    | some r => skipAttrs fuel r
    | none => l

/-- The genotype-table row pattern after the variant capture
`\w+\([ATCG];?[ATCG]\)`:
`\|(?P<genotype>[^\]]*)\]\]\s*\|ATTRS\s*\|\s*(?P<magnitude>[\d.]*)\s*\|(?P<comment>.*?)\|-\s*`. -/
def matchRowRest (variant : List Char) (r : List Char) :
    Option (RowMatch × List Char) :=
  match dropLit ['|'] r with
  | none => none
  | some r5 =>
    match dropLit [']', ']'] (r5.dropWhile (fun c => c ≠ ']')) with
    | none => none
    | some r6 =>
      match dropLit ['|'] (skipSpaces r6) with
      | none => none
      | some r7 =>
        match dropLit ['|'] (skipSpaces (skipAttrs r7.length r7)) with
        | none => none
        | some r9 =>
          match dropLit ['|']
              (skipSpaces ((skipSpaces r9).dropWhile (fun c => c.isDigit || c = '.'))) with
          | none => none
          | some r11 =>
            match splitOcc ['|', '-'] r11 with
            | none => none
            | some (comment, r12) =>
              some (⟨variant, r5.takeWhile (fun c => c ≠ ']'),
                     (skipSpaces r9).takeWhile (fun c => c.isDigit || c = '.'),
                     comment⟩, skipSpaces r12)

/-- `re.match` of the full row pattern
`\|\s*\[\[(?P<variant>\w+\([ATCG];?[ATCG]\))\|...` at the start of the
input (anchored). -/
def matchRow (l : List Char) : Option (RowMatch × List Char) :=
  match dropLit ['|'] l with
  | none => none
  | some r1 =>
    match dropLit ['[', '['] (skipSpaces r1) with
    | none => none
    | some r2 =>
      if (r2.takeWhile isWordChar).isEmpty then none
      else
        match r2.dropWhile isWordChar with
        | '(' :: b1 :: rest3 =>
          if isBase b1 then
            match rest3 with
            | ';' :: b2 :: ')' :: rest4 =>
              if isBase b2 then
                matchRowRest (r2.takeWhile isWordChar ++ ['(', b1, ';', b2, ')']) rest4
              else none
            | b2 :: ')' :: rest4 =>
              if isBase b2 then
                matchRowRest (r2.takeWhile isWordChar ++ ['(', b1, b2, ')']) rest4
              else none
            | _ => none
          else none
        | _ => none

/-- Python `str.strip()`: drop whitespace at both ends. -/
def pyStrip (l : List Char) : List Char :=
  ((l.dropWhile isSpaceChar).reverse.dropWhile isSpaceChar).reverse

/-- Python `str.rstrip()`. -/
def pyRstrip (l : List Char) : List Char :=
  (l.reverse.dropWhile isSpaceChar).reverse

/-- Numeric value of a digit string. -/
def digitsVal (l : List Char) : Nat :=
  l.foldl (fun n c => 10 * n + (c.toNat - ('0').toNat)) 0

/-- Python `float()` on a string drawn from `[\d.]*` (also `none` on any
other junk): defined iff the string has at least one digit and at most
one period; `none` models the raised `ValueError`. -/
def pyFloat (s : List Char) : Option ℚ :=
  if (s.takeWhile (fun c => c ≠ '.')).all Char.isDigit then
    match s.dropWhile (fun c => c ≠ '.') with
    | [] =>
      if s.isEmpty then none
      else some ((digitsVal s : ℚ))
    | _ :: fp =>
      if fp.all Char.isDigit
          && !((s.takeWhile (fun c => c ≠ '.')).isEmpty && fp.isEmpty) then
        some ((digitsVal (s.takeWhile (fun c => c ≠ '.')) : ℚ)
              + (digitsVal fp : ℚ) / (10 : ℚ) ^ fp.length)
      else none
  else none

/-- The `substitutions` dict of `switch_orientation`; `.get` returns
`None` off the four bases. -/
def substitutionsGet (c : Char) : Option Char :=
  if c = 'A' then some 'T'
  else if c = 'T' then some 'A'
  else if c = 'C' then some 'G'
  else if c = 'G' then some 'C'
  else none

/-- `"".join(map(substitutions.get, genotype))`: `none` models the
`TypeError` that `join` raises when `.get` produced a `None`. -/
def switch_orientation : List Char → Option (List Char)
  | [] => some []
  | c :: cs =>
    match substitutionsGet c, switch_orientation cs with
    | some b, some bs => some (b :: bs)
    | _, _ => none

/-- One row of the parsed genotype table
(`dict(magnitude=..., variant=..., comment=...)`). -/
structure GenotypeEntry where
  magnitude : Option ℚ
  variant : List Char
  comment : List Char
deriving DecidableEq

/-- The record `read_snpedia` returns for a recognized page. -/
structure AnnotationRecord where
  max_magnitude : ℚ
  original_orientation : List Char
  genotypes : List (List Char × GenotypeEntry)
deriving DecidableEq

/-- A parse outcome: the not-applicable empty dict `{}`, or a full record. -/
inductive ParseResult where
  | notApplicable
  | record (r : AnnotationRecord)
deriving DecidableEq

/-- Python dict assignment `d[k] = v`: replace the binding if the key is
present, else append it. -/
def dictInsert {β : Type} (m : List (List Char × β)) (k : List Char) (v : β) :
    List (List Char × β) :=
  match m with
  | [] => [(k, v)]
  | (k', v') :: rest =>
    if k' = k then (k, v) :: rest else (k', v') :: dictInsert rest k v

/-- Python dict lookup (keys are unique, so first match). -/
def dictFind {β : Type} (m : List (List Char × β)) (k : List Char) : Option β :=
  match m with
  | [] => none
  | (k', v) :: rest => if k' = k then some v else dictFind rest k

def minusLit : List Char := ("minus").data

/-- Key normalization of one row: `re.sub("\W", "", genotype)` keeps
exactly the word characters; a `minus` page then complements the result
(`none` models the `TypeError` on a non-ATCG character). -/
def rowGenotypeKey (orientation raw : List Char) : Option (List Char) :=
  if orientation = minusLit then switch_orientation (raw.filter isWordChar)
  else some (raw.filter isWordChar)

/-- `float(magnitude) if magnitude else None`: an empty capture is the
explicit absent value; `none` at the outer level models the `ValueError`
of `float`. -/
def rowMagValue (s : List Char) : Option (Option ℚ) :=
  if s.isEmpty then some none else (pyFloat s).map some

/-- The `while True` row loop of `read_snpedia`. Each matched row consumes
at least one character, so fuel equal to the input length never runs out. -/
def readRows : Nat → List Char → List Char → List (List Char × GenotypeEntry) →
    Option (List (List Char × GenotypeEntry))
  | 0, _, _, acc => some acc
  | fuel + 1, orientation, l, acc =>
    match matchRow l with
    | none => some acc
    | some (row, rest) =>
      match rowGenotypeKey orientation row.genotype with
      | none => none
      | some key =>
        match rowMagValue row.magnitude with
        | none => none
        | some mag =>
          readRows fuel orientation rest
            (dictInsert acc key ⟨mag, row.variant, pyStrip row.comment⟩)

def orientationLit : List Char := ("[[Orientation::").data
def maxMagnitudeLit : List Char := ("[[Max Magnitude::").data

/-- `read_snpedia`: the whole parser. A missing orientation or
max-magnitude field returns the empty dict (`notApplicable`); `none`
models an uncaught exception (the `AttributeError` when the table-header
search fails, the `TypeError`/`ValueError` inside the row loop). -/
def read_snpedia (s : List Char) : Option ParseResult :=
  match searchField orientationLit isWordChar s with
  | none => some ParseResult.notApplicable
  | some orientation =>
    match searchField maxMagnitudeLit Char.isDigit s with
    | none => some ParseResult.notApplicable
    | some mm =>
      match searchHeader s with
      | none => none
      | some rest =>
        match readRows (rest.length + 1) orientation rest [] with
        | none => none
        | some gts =>
          some (ParseResult.record ⟨(digitsVal mm : ℚ), orientation, gts⟩)

/-- A flattened match produced by `test_and_store_genotype`:
`dict(snpinfo[rsid])` plus the added keys. -/
structure MatchRecord where
  max_magnitude : ℚ
  original_orientation : List Char
  genotypes : List (List Char × GenotypeEntry)
  rsid : List Char
  genotype : List Char
  magnitude : Option ℚ
  link : List Char
deriving DecidableEq

/-- Python `str.capitalize()`: first character uppercased, the rest
lowercased. -/
def pyCapitalize : List Char → List Char
  | [] => []
  | c :: rest => c.toUpper :: rest.map Char.toLower

def linkBase : List Char := ("http://www.snpedia.com/index.php/").data

def mkMatch (r : AnnotationRecord) (rsid genotype : List Char)
    (e : GenotypeEntry) : MatchRecord :=
  ⟨r.max_magnitude, r.original_orientation, r.genotypes, rsid, genotype,
   e.magnitude, linkBase ++ pyCapitalize rsid⟩

/-- `test_and_store_genotype(snpinfo, rsid, genotype, matches)`: appends a
match when `snpinfo[rsid]` is truthy (a non-empty record, not `{}`) and
the genotype is one of its keys, and returns the list; `none` models the
`KeyError` when `rsid` is not a key of `snpinfo`. -/
def test_and_store_genotype (snpinfo : List (List Char × ParseResult))
    (rsid genotype : List Char) (matchList : List MatchRecord) :
    Option (List MatchRecord) :=
  match dictFind snpinfo rsid with
  | none => none
  | some ParseResult.notApplicable => some matchList
  | some (ParseResult.record r) =>
    match dictFind r.genotypes genotype with
    | none => some matchList
    | some e => some (matchList ++ [mkMatch r rsid genotype e])

/-- What one call with a present key appends. -/
def tsgDelta (pr : ParseResult) (rsid genotype : List Char) : List MatchRecord :=
  match pr with
  | ParseResult.notApplicable => []
  | ParseResult.record r =>
    match dictFind r.genotypes genotype with
    | none => []
    | some e => [mkMatch r rsid genotype e]

/-- One data row of the 23andMe file (the fields the loop reads). -/
structure ObservedRow where
  rsid : List Char
  genotype : List Char
deriving DecidableEq

/-- The mutable state of the `__main__` loop: the json index `snpinfo`,
the zip archive contents, the shared `matches` list, and a log of the
identifiers fetched from the wiki client. -/
structure PipeState where
  snpinfo : List (List Char × ParseResult)
  zip : List (List Char × List Char)
  matchList : List MatchRecord
  fetched : List (List Char)
deriving DecidableEq

def zipNames (z : List (List Char × List Char)) : List (List Char) :=
  z.map Prod.fst

/-- `ziparchive.read(name)`: the last entry written under the name wins
(`NameToInfo` is updated on every `writestr`); `none` models the
`KeyError` on a missing name. -/
def zipRead (z : List (List Char × List Char)) (n : List Char) :
    Option (List Char) :=
  (z.reverse.find? (fun e => e.1 = n)).map Prod.snd

/-- The tail shared by the zip-hit and fetch branches: parse the archived
page, store the result in `snpinfo`, and (for a truthy result) run the
genotype test. `none` models an uncaught exception inside
`read_snpedia`. -/
def parseStep (st : PipeState) (zip' : List (List Char × List Char))
    (fetched' : List (List Char)) (row : ObservedRow) : Option PipeState :=
  match zipRead zip' row.rsid with
  | none => none
  | some text =>
    match read_snpedia text with
    | none => none
    | some pr =>
      match pr with
      | ParseResult.notApplicable =>
        some { st with snpinfo := dictInsert st.snpinfo row.rsid pr,
                       zip := zip', fetched := fetched' }
      | ParseResult.record _ =>
        match test_and_store_genotype (dictInsert st.snpinfo row.rsid pr)
            row.rsid row.genotype st.matchList with
        | none => none
        | some ms =>
          some ⟨dictInsert st.snpinfo row.rsid pr, zip', ms, fetched'⟩

/-- One iteration of the main loop over the genome file rows: comment
skip, then the tiered lookup (json index, zip namelist snapshot,
known-identifier set, else skip). `nl` is the `namelist` set computed
once before the loop; `fetch` is the external wiki client's
`getWikiText`. `none` models an uncaught exception (`rsid[0]` on an
empty identifier, or a parse failure). -/
def processRow (rsids nl : List (List Char)) (fetch : List Char → List Char)
    (st : PipeState) (row : ObservedRow) : Option PipeState :=
  match row.rsid with
  | [] => none
  | c :: _ =>
    if c = '#' then some st
    else if (dictFind st.snpinfo row.rsid).isSome then
      match test_and_store_genotype st.snpinfo row.rsid row.genotype st.matchList with
      | none => none
      | some ms => some { st with matchList := ms }
    else if row.rsid ∈ nl then
      parseStep st st.zip st.fetched row
    else if row.rsid ∈ rsids then
      parseStep st (st.zip ++ [(row.rsid, fetch row.rsid)])
        (st.fetched ++ [row.rsid]) row
    else some st

/-- The loop over all rows. -/
def runRows (rsids nl : List (List Char)) (fetch : List Char → List Char)
    (rows : List ObservedRow) (st : PipeState) : Option PipeState :=
  match rows with
  | [] => some st
  | r :: rest =>
    match processRow rsids nl fetch st r with
    | none => none
    | some st' => runRows rsids nl fetch rest st'

/-- One full run of the pipeline core: the `namelist` snapshot is taken
from the archive once, the match collector starts empty, and no fetches
have happened yet. -/
def runPipeline (rsids : List (List Char)) (fetch : List Char → List Char)
    (rows : List ObservedRow) (snpinfo0 : List (List Char × ParseResult))
    (zip0 : List (List Char × List Char)) : Option PipeState :=
  runRows rsids (zipNames zip0) fetch rows ⟨snpinfo0, zip0, [], []⟩

/-- The comparison `None < any float` of Python 2, used by
`matches.sort(key=..., reverse=True)`. -/
def magLT (a b : Option ℚ) : Bool :=
  match a, b with
  | none, none => false
  | none, some _ => true
  | some _, none => false
  | some x, some y => decide (x < y)

/-- Stable insertion for a descending sort: `x` passes exactly the
elements whose key is strictly greater than its own. -/
def insertDesc (x : MatchRecord) : List MatchRecord → List MatchRecord
  | [] => [x]
  | y :: ys =>
    if magLT x.magnitude y.magnitude then y :: insertDesc x ys
    else x :: y :: ys

/-- `matches.sort(key=lambda g: g["magnitude"], reverse=True)`: Python's
sort is stable; with `reverse=True` it is the stable descending sort by
the key, `None` comparing below every number in Python 2. -/
def pySortDesc : List MatchRecord → List MatchRecord
  | [] => []
  | x :: xs => insertDesc x (pySortDesc xs)

/-- Python 2 `str.lower()` on one ASCII character: ordinals 65–90
(`A`–`Z`) move down by 32; everything else is unchanged. -/
def pyLowerChar (c : Char) : Char :=
  if 65 ≤ c.toNat ∧ c.toNat ≤ 90 then Char.ofNat (c.toNat + 32) else c

/-- `article.title.lower()`. -/
def pyLower (s : List Char) : List Char := s.map pyLowerChar

/-- The known-identifier set as first enumerated from the wiki category:
every title lowercased. -/
def buildRsids (titles : List (List Char)) : List (List Char) :=
  titles.map pyLower

/-- Python 2 string comparison (lexicographic by character). -/
def strLT : List Char → List Char → Bool
  | [], [] => false
  | [], _ :: _ => true
  | _ :: _, [] => false
  | a :: as_, b :: bs => if a < b then true else if b < a then false else strLT as_ bs

def insertAsc (x : List Char) : List (List Char) → List (List Char)
  | [] => [x]
  | y :: ys => if strLT y x then y :: insertAsc x ys else x :: y :: ys

/-- `sorted(snpedia_rsids)`. -/
def sortedStrs : List (List Char) → List (List Char)
  | [] => []
  | x :: xs => insertAsc x (sortedStrs xs)

/-- `"\n".join(...)`. -/
def joinNl : List (List Char) → List Char
  | [] => []
  | [s] => s
  | s :: rest => s ++ '\n' :: joinNl rest

/-- `ziparchive.writestr("snpedia_rsids", "\n".join(sorted(snpedia_rsids)))`:
the persisted form of the known-identifier set. -/
def persistRsids (s : List (List Char)) : List Char := joinNl (sortedStrs s)

/-- How a later run reads the set back:
`{line.rstrip() for line in ziparchive.read("snpedia_rsids")}`.
Iterating a Python `str` yields its characters, so each "line" is a
single character of the stored file. -/
def readPersistedRsids (content : List Char) : List (List Char) :=
  content.map (fun c => pyRstrip [c])

/-- A sequence of `test_and_store_genotype` calls that all omit the
`matches` argument: every such call appends to and returns the one
shared default list. -/
structure TsgCall where
  snpinfo : List (List Char × ParseResult)
  rsid : List Char
  genotype : List Char

def runSharedCalls (calls : List TsgCall) (shared : List MatchRecord) :
    Option (List MatchRecord) :=
  match calls with
  | [] => some shared
  | c :: rest =>
    match test_and_store_genotype c.snpinfo c.rsid c.genotype shared with
    | none => none
    | some m => runSharedCalls rest m

/-- The contribution of one call to the shared list. -/
def callDelta (c : TsgCall) : List MatchRecord :=
  match dictFind c.snpinfo c.rsid with
  | none => []
  | some pr => tsgDelta pr c.rsid c.genotype

/-! ## Supporting lemmas -/

/-- The total base-complement function underlying the `substitutions` dict. -/
def complBase (c : Char) : Char :=
  if c = 'A' then 'T'
  else if c = 'T' then 'A'
  else if c = 'C' then 'G'
  else if c = 'G' then 'C'
  else c

lemma isBase_cases (c : Char) (h : isBase c = true) :
    c = 'A' ∨ c = 'T' ∨ c = 'C' ∨ c = 'G' := by
  simp only [isBase, Bool.or_eq_true, decide_eq_true_eq] at h
  tauto

lemma substitutionsGet_of_base (c : Char) (h : isBase c = true) :
    substitutionsGet c = some (complBase c) := by
  rcases isBase_cases c h with h' | h' | h' | h' <;> subst h' <;> rfl

lemma isBase_complBase (c : Char) (h : isBase c = true) :
    isBase (complBase c) = true := by
  rcases isBase_cases c h with h' | h' | h' | h' <;> subst h' <;> rfl

lemma complBase_complBase (c : Char) (h : isBase c = true) :
    complBase (complBase c) = c := by
  rcases isBase_cases c h with h' | h' | h' | h' <;> subst h' <;> rfl

lemma switch_orientation_eq_map (l : List Char) (h : ∀ c ∈ l, isBase c = true) :
    switch_orientation l = some (l.map complBase) := by
  induction l with
  | nil => rfl
  | cons c cs ih =>
    have hc : isBase c = true := h c (List.mem_cons_self c cs)
    have hcs : ∀ x ∈ cs, isBase x = true := fun x hx => h x (List.mem_cons_of_mem c hx)
    simp [switch_orientation, substitutionsGet_of_base c hc, ih hcs]

/-! ## C4: the orientation normalizer -/

/-- C4: on a genotype string made of the bases A/T/C/G,
`switch_orientation` returns the position-wise base complement
(A↔T, C↔G) of the same length, and applying it twice returns the
original string. -/
theorem switch_orientation_complement (l : List Char)
    (h : ∀ c ∈ l, isBase c = true) :
    switch_orientation l = some (l.map complBase)
    ∧ (l.map complBase).length = l.length
    ∧ (switch_orientation l).bind switch_orientation = some l := by
  have h2 : ∀ c ∈ l.map complBase, isBase c = true := by
    intro c hc
    rcases List.mem_map.mp hc with ⟨a, ha, rfl⟩
    exact isBase_complBase a (h a ha)
  refine ⟨switch_orientation_eq_map l h, l.length_map complBase, ?_⟩
  rw [switch_orientation_eq_map l h, Option.some_bind,
      switch_orientation_eq_map _ h2, List.map_map]
  have : ∀ c ∈ l, (complBase ∘ complBase) c = id c := by
    intro c hc
    simp [Function.comp, complBase_complBase c (h c hc)]
  rw [List.map_congr_left this, List.map_id]

/-- Witness for C4 at the concrete genotype string `ACGT`. -/
theorem switch_orientation_complement_check :
    switch_orientation (("ACGT").data) = some ((("ACGT").data).map complBase)
    ∧ ((("ACGT").data).map complBase).length = (("ACGT").data).length
    ∧ (switch_orientation (("ACGT").data)).bind switch_orientation
        = some (("ACGT").data) :=
  switch_orientation_complement (("ACGT").data) (by decide)

/-! ## C5: the concrete minus-orientation scenario -/

def pageC5 : List Char :=
  ("[[Orientation::minus]]\n[[Max Magnitude::4]]\n! [[Magnitude|Mag]] !! Summary\n|-\n| [[Rs1234(A;A)|(A;A)]] | | 2 | common |-\n").data

/-- C5: the page with `[[Orientation::minus]]`, `[[Max Magnitude::4]]`,
the table header and one row for genotype `(A;A)` with magnitude 2
parses to max magnitude 4, orientation "minus", and the single
complemented genotype key "TT" with magnitude 2. -/
theorem scenario_minus_page :
    read_snpedia pageC5 = some (ParseResult.record
      ⟨(4 : ℚ), ("minus").data,
       [(("TT").data,
         ⟨some (2 : ℚ), ("Rs1234(A;A)").data, ("common").data⟩)]⟩) := by
  decide

/-! ## C1: totality of the parser -/

/-- A page carrying both structured fields but no genotype-table header:
the header `re.search` returns `None` and line 39 of the source
(`string[match.end(0):]`) raises `AttributeError`. -/
def pageNoHeader : List Char :=
  ("[[Orientation::plus]]\n[[Max Magnitude::3]]\n").data

/-- C1 counterexample: `read_snpedia` is not total. On a page that has
the orientation and max-magnitude fields but no table-header marker it
raises (modelled by `none`) instead of returning a record or the
not-applicable result. -/
theorem read_snpedia_crash_no_header :
    searchField orientationLit isWordChar pageNoHeader = some (("plus").data)
    ∧ searchField maxMagnitudeLit Char.isDigit pageNoHeader = some (("3").data)
    ∧ read_snpedia pageNoHeader = none := by decide

/-- C1 amended: when the orientation field or the max-magnitude field is
missing, `read_snpedia` returns the explicit not-applicable result (the
empty record), never partial fields; totality fails only in the presence
of both fields (see the counterexample). -/
theorem missing_field_not_applicable (s : List Char)
    (h : searchField orientationLit isWordChar s = none
       ∨ searchField maxMagnitudeLit Char.isDigit s = none) :
    read_snpedia s = some ParseResult.notApplicable := by
  rcases h with h | h
  · simp [read_snpedia, h]
  · unfold read_snpedia
    cases ho : searchField orientationLit isWordChar s with
    | none => rfl
    | some o => simp [h]

/-- Witness for C1 at a concrete field-free page. -/
theorem missing_field_not_applicable_check :
    read_snpedia (("x").data) = some ParseResult.notApplicable :=
  missing_field_not_applicable (("x").data) (Or.inl (by decide))

/-! ## C3: the final magnitude sort -/

lemma magLT_asymm (a b : Option ℚ) (h : magLT a b = true) : magLT b a = false := by
  cases a <;> cases b <;> simp [magLT] at *
  linarith

lemma magLT_neg_trans (a b c : Option ℚ) (h1 : magLT a b = false)
    (h2 : magLT b c = false) : magLT a c = false := by
  cases a <;> cases b <;> cases c <;> simp [magLT] at *
  linarith

lemma mem_insertDesc (x z : MatchRecord) :
    ∀ l, z ∈ insertDesc x l → z = x ∨ z ∈ l
  | [], h => by
    simp [insertDesc] at h
    exact Or.inl h
  | y :: ys, h => by
    unfold insertDesc at h
    split at h
    · rcases List.mem_cons.mp h with rfl | h'
      · exact Or.inr (List.mem_cons_self z ys)
      · rcases mem_insertDesc x z ys h' with rfl | h''
        · exact Or.inl rfl
        · exact Or.inr (List.mem_cons_of_mem y h'')
    · rcases List.mem_cons.mp h with rfl | h'
      · exact Or.inl rfl
      · exact Or.inr h'

lemma pairwise_insertDesc (x : MatchRecord) :
    ∀ l, List.Pairwise (fun a b : MatchRecord =>
        magLT a.magnitude b.magnitude = false) l →
      List.Pairwise (fun a b : MatchRecord =>
        magLT a.magnitude b.magnitude = false) (insertDesc x l)
  | [], _ => by simp [insertDesc]
  | y :: ys, h => by
    rw [List.pairwise_cons] at h
    obtain ⟨hy, hys⟩ := h
    unfold insertDesc
    split
    · rename_i hlt
      rw [List.pairwise_cons]
      refine ⟨?_, pairwise_insertDesc x ys hys⟩
      intro z hz
      rcases mem_insertDesc x z ys hz with rfl | hz'
      · exact magLT_asymm _ _ hlt
      · exact hy z hz'
    · rename_i hnlt
      rw [List.pairwise_cons]
      refine ⟨?_, List.pairwise_cons.mpr ⟨hy, hys⟩⟩
      intro z hz
      have hxy : magLT x.magnitude y.magnitude = false :=
        Bool.eq_false_iff.mpr hnlt
      rcases List.mem_cons.mp hz with rfl | hz'
      · exact hxy
      · exact magLT_neg_trans _ _ _ hxy (hy z hz')

lemma pairwise_pySortDesc :
    ∀ l : List MatchRecord, List.Pairwise (fun a b : MatchRecord =>
      magLT a.magnitude b.magnitude = false) (pySortDesc l)
  | [] => by simp [pySortDesc]
  | x :: xs => pairwise_insertDesc x (pySortDesc xs) (pairwise_pySortDesc xs)

lemma insertDesc_perm (x : MatchRecord) :
    ∀ l, (insertDesc x l).Perm (x :: l)
  | [] => List.Perm.refl _
  | y :: ys => by
    unfold insertDesc
    split
    · exact ((insertDesc_perm x ys).cons y).trans (List.Perm.swap x y ys)
    · exact List.Perm.refl _

lemma pySortDesc_perm : ∀ l : List MatchRecord, (pySortDesc l).Perm l
  | [] => List.Perm.refl _
  | x :: xs => (insertDesc_perm x (pySortDesc xs)).trans ((pySortDesc_perm xs).cons x)

lemma filter_insertDesc_some (x : MatchRecord) (hx : x.magnitude.isNone = false) :
    ∀ l, (insertDesc x l).filter (fun r => r.magnitude.isNone)
      = l.filter (fun r => r.magnitude.isNone)
  | [] => by simp [insertDesc, List.filter, hx]
  | y :: ys => by
    unfold insertDesc
    split
    · simp only [List.filter]
      rw [filter_insertDesc_some x hx ys]
    · simp [List.filter, hx]

lemma filter_insertDesc_none (x : MatchRecord) (hx : x.magnitude = none) :
    ∀ l, (insertDesc x l).filter (fun r => r.magnitude.isNone)
      = x :: l.filter (fun r => r.magnitude.isNone)
  | [] => by simp [insertDesc, List.filter, hx]
  | y :: ys => by
    unfold insertDesc
    split
    · rename_i hlt
      rcases hy : y.magnitude with _ | q
      · rw [hx, hy] at hlt; simp [magLT] at hlt
      · simp only [List.filter, hy]
        rw [filter_insertDesc_none x hx ys]
        simp
    · simp [List.filter, hx]

lemma filter_pySortDesc :
    ∀ l : List MatchRecord, (pySortDesc l).filter (fun r => r.magnitude.isNone)
      = l.filter (fun r => r.magnitude.isNone)
  | [] => rfl
  | x :: xs => by
    unfold pySortDesc
    rcases hx : x.magnitude with _ | q
    · rw [filter_insertDesc_none x hx (pySortDesc xs), filter_pySortDesc xs]
      simp [List.filter, hx]
    · have hx' : x.magnitude.isNone = false := by rw [hx]; rfl
      rw [filter_insertDesc_some x hx' (pySortDesc xs), filter_pySortDesc xs]
      simp [List.filter, hx']

/-- C3: `matches.sort(key=..., reverse=True)` emits a list that is
non-increasing in magnitude (no later element has a strictly greater
key, absent = `None` comparing below every number), places every
absent-magnitude record after every present-magnitude record, keeps the
collected relative order among absent-magnitude records, and is a
permutation of the input. -/
theorem sort_ranking (l : List MatchRecord) :
    List.Pairwise (fun a b : MatchRecord =>
      magLT a.magnitude b.magnitude = false) (pySortDesc l)
    ∧ List.Pairwise (fun a b : MatchRecord =>
      a.magnitude = none → b.magnitude = none) (pySortDesc l)
    ∧ (pySortDesc l).filter (fun r => r.magnitude.isNone)
        = l.filter (fun r => r.magnitude.isNone)
    ∧ (pySortDesc l).Perm l := by
  refine ⟨pairwise_pySortDesc l, ?_, filter_pySortDesc l, pySortDesc_perm l⟩
  refine (pairwise_pySortDesc l).imp ?_
  intro a b hab ha
  rcases hb : b.magnitude with _ | q
  · rfl
  · rw [ha, hb] at hab
    simp [magLT] at hab

/-! ## C7: shape of the captured magnitude -/

lemma pyFloat_nonneg (s : List Char) (q : ℚ) (h : pyFloat s = some q) : 0 ≤ q := by
  unfold pyFloat at h
  split at h
  · split at h
    · split at h
      · exact absurd h (by simp)
      · rw [Option.some_inj] at h
        subst h
        positivity
    · split at h
      · rw [Option.some_inj] at h
        subst h
        positivity
      · exact absurd h (by simp)
  · exact absurd h (by simp)

lemma matchRowRest_magnitude (v r : List Char) (row : RowMatch) (rest : List Char)
    (h : matchRowRest v r = some (row, rest)) :
    ∀ c ∈ row.magnitude, (c.isDigit || c = '.') = true := by
  unfold matchRowRest at h
  split at h
  · exact absurd h (by simp)
  · split at h
    · exact absurd h (by simp)
    · split at h
      · exact absurd h (by simp)
      · split at h
        · exact absurd h (by simp)
        · split at h
          · exact absurd h (by simp)
          · split at h
            · exact absurd h (by simp)
            · rw [Option.some_inj, Prod.mk.injEq] at h
              obtain ⟨hrow, -⟩ := h
              subst hrow
              intro c hc
              have := List.mem_takeWhile_imp hc
              simpa using this

lemma matchRow_magnitude (l : List Char) (row : RowMatch) (rest : List Char)
    (h : matchRow l = some (row, rest)) :
    ∀ c ∈ row.magnitude, (c.isDigit || c = '.') = true := by
  unfold matchRow at h
  split at h
  · exact absurd h (by simp)
  · split at h
    · exact absurd h (by simp)
    · split at h
      · exact absurd h (by simp)
      · split at h
        · split at h
          · split at h
            · split at h
              · exact matchRowRest_magnitude _ _ _ _ h
              · exact absurd h (by simp)
            · split at h
              · exact matchRowRest_magnitude _ _ _ _ h
              · exact absurd h (by simp)
            · exact absurd h (by simp)
          · exact absurd h (by simp)
        · exact absurd h (by simp)

/-- The row that shows the pattern admits an unparseable magnitude. -/
def rowDot : List Char := ("| [[Rs1(A;A)|AA]] | | . | c |-").data

/-- C7 counterexample: the row pattern matches a row whose captured
magnitude text is `"."`, which is non-empty and does not parse as a
float (`float(".")` raises `ValueError`, so the conversion's error
branch is reachable for a pattern-matched row). -/
theorem row_magnitude_dot :
    matchRow rowDot
      = some (⟨("Rs1(A;A)").data, ("AA").data, ['.'], (" c ").data⟩, [])
    ∧ (['.'] : List Char) ≠ []
    ∧ pyFloat ['.'] = none
    ∧ rowMagValue ['.'] = none := by decide

/-- C7 amended: for every row matched by the row pattern the captured
magnitude text consists only of digits and periods; whenever it does
parse as a float the value is non-negative; and an empty capture is
stored as the explicit absent value, never a placeholder number. (The
capture can still be non-empty yet unparseable, e.g. `"."`; see the
counterexample.) -/
theorem matched_row_magnitude (l : List Char) (row : RowMatch) (rest : List Char)
    (h : matchRow l = some (row, rest)) :
    (∀ c ∈ row.magnitude, (c.isDigit || c = '.') = true)
    ∧ (∀ q, pyFloat row.magnitude = some q → 0 ≤ q)
    ∧ rowMagValue [] = some none :=
  ⟨matchRow_magnitude l row rest h, fun q hq => pyFloat_nonneg _ q hq, rfl⟩

/-- A well-formed row used to witness C7. -/
def rowTwo : List Char := ("| [[Rs1(A;A)|AA]] | | 2 | c |-").data

/-- Witness for C7 at a concrete matched row. -/
theorem matched_row_magnitude_check :
    (∀ c ∈ ((['2'] : List Char)), (c.isDigit || c = '.') = true)
    ∧ (∀ q, pyFloat (['2'] : List Char) = some q → 0 ≤ q)
    ∧ rowMagValue [] = some none :=
  matched_row_magnitude rowTwo
    ⟨("Rs1(A;A)").data, ("AA").data, ['2'], (" c ").data⟩ [] (by decide)

/-! ## C8: normalization of the genotype keys -/

lemma mem_dictInsert {β : Type} (k' k : List Char) (v e : β) :
    ∀ m : List (List Char × β),
      (k, e) ∈ dictInsert m k' v → (k, e) ∈ m ∨ k = k'
  | [], h => by
    simp [dictInsert] at h
    exact Or.inr h.1
  | p :: rest, h => by
    unfold dictInsert at h
    split at h
    · rcases List.mem_cons.mp h with h' | h'
      · exact Or.inr (congrArg Prod.fst h')
      · exact Or.inl (List.mem_cons_of_mem p h')
    · rcases List.mem_cons.mp h with h' | h'
      · exact Or.inl (h' ▸ List.mem_cons_self p rest)
      · rcases mem_dictInsert k' k v e rest h' with h'' | h''
        · exact Or.inl (List.mem_cons_of_mem p h'')
        · exact Or.inr h''

lemma switch_orientation_chars (g k : List Char)
    (h : switch_orientation g = some k) : ∀ c ∈ k, isBase c = true := by
  induction g generalizing k with
  | nil =>
    unfold switch_orientation at h
    rw [Option.some_inj] at h
    subst h
    intro c hc
    cases hc
  | cons a as ih =>
    unfold switch_orientation at h
    split at h
    · rename_i b bs hb hbs
      rw [Option.some_inj] at h
      subst h
      intro c hc
      rcases List.mem_cons.mp hc with rfl | hc'
      · unfold substitutionsGet at hb
        split at hb
        · rw [Option.some_inj] at hb; subst hb; rfl
        · split at hb
          · rw [Option.some_inj] at hb; subst hb; rfl
          · split at hb
            · rw [Option.some_inj] at hb; subst hb; rfl
            · split at hb
              · rw [Option.some_inj] at hb; subst hb; rfl
              · exact absurd hb (by simp)
      · exact ih bs hbs c hc'
    · exact absurd h (by simp)

lemma isBase_isWordChar (c : Char) (h : isBase c = true) : isWordChar c = true := by
  rcases isBase_cases c h with h' | h' | h' | h' <;> subst h' <;> rfl

/-- The invariant of every key inserted by the row loop. -/
def keyNormalized (orientation k : List Char) : Prop :=
  (∀ c ∈ k, isWordChar c = true)
  ∧ (orientation = minusLit → ∃ g, switch_orientation g = some k)

lemma rowGenotypeKey_normalized (orientation raw k : List Char)
    (h : rowGenotypeKey orientation raw = some k) : keyNormalized orientation k := by
  unfold rowGenotypeKey at h
  split at h
  · rename_i hmin
    refine ⟨?_, fun _ => ⟨raw.filter isWordChar, h⟩⟩
    intro c hc
    exact isBase_isWordChar c (switch_orientation_chars _ k h c hc)
  · rename_i hmin
    rw [Option.some_inj] at h
    subst h
    refine ⟨?_, fun hm => absurd hm hmin⟩
    intro c hc
    exact List.of_mem_filter hc

lemma readRows_keys :
    ∀ (fuel : Nat) (orientation l : List Char)
      (acc gts : List (List Char × GenotypeEntry)),
      readRows fuel orientation l acc = some gts →
      (∀ k e, (k, e) ∈ acc → keyNormalized orientation k) →
      ∀ k e, (k, e) ∈ gts → keyNormalized orientation k
  | 0, orientation, l, acc, gts, h, hacc => by
    unfold readRows at h
    rw [Option.some_inj] at h
    subst h
    exact hacc
  | fuel + 1, orientation, l, acc, gts, h, hacc => by
    unfold readRows at h
    split at h
    · rw [Option.some_inj] at h
      subst h
      exact hacc
    · rename_i row rest hrow
      split at h
      · exact absurd h (by simp)
      · rename_i key hkey
        split at h
        · exact absurd h (by simp)
        · rename_i mag hmag
          refine readRows_keys fuel orientation rest _ gts h ?_
          intro k e hk
          rcases mem_dictInsert key k _ e acc hk with h' | rfl
          · exact hacc k e h'
          · exact rowGenotypeKey_normalized orientation row.genotype k hkey

/-- The page whose parsed genotype key contains a digit. -/
def pageDigitKey : List Char :=
  ("[[Orientation::plus]]\n[[Max Magnitude::3]]\n! [[Magnitude|Mag]] x |-\n| [[Rs7(A;A)|A1]] | | 2 | c |-\n").data

/-- C8 counterexample: `re.sub("\W", ...)` strips non-word characters,
not non-letter characters, so a raw table genotype `A1` yields the
parsed key `A1`, which does not consist only of letters. -/
theorem genotype_key_with_digit :
    read_snpedia pageDigitKey = some (ParseResult.record
      ⟨(3 : ℚ), ("plus").data,
       [(("A1").data, ⟨some (2 : ℚ), ("Rs7(A;A)").data, ['c']⟩)]⟩)
    ∧ ¬ (∀ c ∈ (("A1").data : List Char), c.isAlpha = true) := by decide

/-- C8 amended: every key of a successfully parsed record consists only
of word characters (letters, digits or underscore — exactly what
stripping `\W` leaves), and on a minus-orientation page every key is an
output of the Orientation Normalizer (hence a plus-strand base-complement
of the stripped raw genotype). -/
theorem parsed_keys_normalized (s : List Char) (r : AnnotationRecord)
    (h : read_snpedia s = some (ParseResult.record r)) :
    ∀ k e, (k, e) ∈ r.genotypes →
      (∀ c ∈ k, isWordChar c = true)
      ∧ (r.original_orientation = minusLit →
          ∃ g, switch_orientation g = some k) := by
  unfold read_snpedia at h
  split at h
  · exact absurd h (by simp)
  · rename_i orientation horient
    split at h
    · exact absurd h (by simp)
    · rename_i mm hmm
      split at h
      · exact absurd h (by simp)
      · rename_i rest hrest
        split at h
        · exact absurd h (by simp)
        · rename_i gts hgts
          rw [Option.some_inj, ParseResult.record.injEq] at h
          subst h
          intro k e hk
          exact readRows_keys (rest.length + 1) orientation rest [] gts hgts
            (by intro k' e' hk'; cases hk') k e hk

/-- Witness for C8 at the concrete digit-key page. -/
theorem parsed_keys_normalized_check :
    (∀ c ∈ (("A1").data : List Char), isWordChar c = true)
    ∧ ((("plus").data : List Char) = minusLit →
        ∃ g, switch_orientation g = some (("A1").data)) :=
  parsed_keys_normalized pageDigitKey
    ⟨(3 : ℚ), ("plus").data,
     [(("A1").data, ⟨some (2 : ℚ), ("Rs7(A;A)").data, ['c']⟩)]⟩
    (by decide) (("A1").data)
    ⟨some (2 : ℚ), ("Rs7(A;A)").data, ['c']⟩ (by decide)

/-! ## The tiered lookup: shared step lemmas -/

lemma processRow_comment (rsids nl : List (List Char))
    (fetch : List Char → List Char) (st : PipeState) (row : ObservedRow)
    (cs : List Char) (hr : row.rsid = '#' :: cs) :
    processRow rsids nl fetch st row = some st := by
  unfold processRow
  rw [hr]
  simp

lemma processRow_skip (rsids nl : List (List Char))
    (fetch : List Char → List Char) (st : PipeState) (row : ObservedRow)
    (c : Char) (cs : List Char) (hr : row.rsid = c :: cs) (hc : c ≠ '#')
    (h1 : dictFind st.snpinfo row.rsid = none)
    (h2 : row.rsid ∉ nl) (h3 : row.rsid ∉ rsids) :
    processRow rsids nl fetch st row = some st := by
  unfold processRow
  rw [hr] at h1 h2 h3 ⊢
  simp [hc, h1, h2, h3]

/-! ## C6: an identifier in none of the tiers -/

/-- C6: a non-comment observed call whose identifier is in none of the
three tiers (parsed index, archive namelist, known-identifier set)
leaves the whole state unchanged: nothing is fetched (the fetch log
stays as it was), no `MatchRecord` is produced, nothing is cached. -/
theorem unknown_rsid_skipped (rsids nl : List (List Char))
    (fetch : List Char → List Char) (st : PipeState) (row : ObservedRow)
    (c : Char) (cs : List Char) (hr : row.rsid = c :: cs)
    (h1 : dictFind st.snpinfo row.rsid = none)
    (h2 : row.rsid ∉ nl) (h3 : row.rsid ∉ rsids) :
    processRow rsids nl fetch st row = some st := by
  by_cases hc : c = '#'
  · subst hc
    exact processRow_comment rsids nl fetch st row cs hr
  · exact processRow_skip rsids nl fetch st row c cs hr hc h1 h2 h3

/-- Witness for C6 at a concrete unknown identifier. -/
theorem unknown_rsid_skipped_check :
    processRow [] [] (fun _ => []) ⟨[], [], [], []⟩
      ⟨("rs9").data, ("AA").data⟩ = some ⟨[], [], [], []⟩ :=
  unknown_rsid_skipped [] [] (fun _ => []) ⟨[], [], [], []⟩
    ⟨("rs9").data, ("AA").data⟩ 'r' ("s9").data (by decide)
    (by decide) (by decide) (by decide)

/-! ## C9: case mismatch between the stored set and the lookup -/

/-- `ord c` is in the ASCII uppercase range. -/
def isUpperAscii (c : Char) : Bool := 65 ≤ c.toNat && c.toNat ≤ 90

lemma pyLowerChar_not_upperAscii (c : Char) :
    isUpperAscii (pyLowerChar c) = false := by
  unfold pyLowerChar
  split
  · rename_i h
    obtain ⟨h1, h2⟩ := h
    generalize hg : c.toNat = n at h1 h2 ⊢
    interval_cases n <;> decide
  · rename_i h
    apply Bool.eq_false_iff.mpr
    intro htrue
    simp only [isUpperAscii, Bool.and_eq_true, decide_eq_true_eq] at htrue
    exact h htrue

lemma upper_not_in_buildRsids (titles : List (List Char)) (rsid : List Char)
    (c : Char) (hc : c ∈ rsid) (hu : isUpperAscii c = true) :
    rsid ∉ buildRsids titles := by
  intro hmem
  rcases List.mem_map.mp hmem with ⟨t, -, rfl⟩
  rcases List.mem_map.mp hc with ⟨a, -, rfl⟩
  rw [pyLowerChar_not_upperAscii a] at hu
  cases hu

/-- C9: the known-identifier set is built with every title lowercased,
but the loop tests the observed identifier verbatim; so an identifier
containing an uppercase letter that is in neither the parsed index nor
the archive namelist is skipped as not-on-wiki — state unchanged, no
fetch, no `MatchRecord` — even when its lowercased form is in the set. -/
theorem uppercase_rsid_not_on_wiki (titles nl : List (List Char))
    (fetch : List Char → List Char) (st : PipeState) (row : ObservedRow)
    (c : Char) (hc : c ∈ row.rsid) (hu : isUpperAscii c = true)
    (h1 : dictFind st.snpinfo row.rsid = none)
    (h2 : row.rsid ∉ nl)
    (hl : pyLower row.rsid ∈ buildRsids titles) :
    processRow (buildRsids titles) nl fetch st row = some st := by
  have h3 : row.rsid ∉ buildRsids titles :=
    upper_not_in_buildRsids titles row.rsid c hc hu
  rcases hr : row.rsid with _ | ⟨c0, cs⟩
  · rw [hr] at hc
    cases hc
  · by_cases h0 : c0 = '#'
    · subst h0
      exact processRow_comment _ nl fetch st row cs hr
    · exact processRow_skip _ nl fetch st row c0 cs hr h0 h1 h2 h3

/-- Witness for C9: `Rs1` is skipped although `rs1` is in the set. -/
theorem uppercase_rsid_not_on_wiki_check :
    processRow (buildRsids [("Rs1").data]) [] (fun _ => []) ⟨[], [], [], []⟩
      ⟨("Rs1").data, ("AA").data⟩ = some ⟨[], [], [], []⟩ :=
  uppercase_rsid_not_on_wiki [("Rs1").data] [] (fun _ => []) ⟨[], [], [], []⟩
    ⟨("Rs1").data, ("AA").data⟩ 'R' (by decide) (by decide) (by decide)
    (by decide) (by decide)

/-! ## C10: the shared mutable default collector -/

lemma tsg_append (snpinfo : List (List Char × ParseResult))
    (rsid genotype : List Char) (m : List MatchRecord) (pr : ParseResult)
    (h : dictFind snpinfo rsid = some pr) :
    test_and_store_genotype snpinfo rsid genotype m
      = some (m ++ tsgDelta pr rsid genotype) := by
  unfold test_and_store_genotype tsgDelta
  rw [h]
  cases pr with
  | notApplicable => simp
  | record r =>
    cases hf : dictFind r.genotypes genotype with
    | none => simp [hf]
    | some e => simp [hf]

lemma runSharedCalls_eq :
    ∀ (calls : List TsgCall),
      (∀ cc ∈ calls, (dictFind cc.snpinfo cc.rsid).isSome = true) →
      ∀ m, runSharedCalls calls m = some (m ++ (calls.map callDelta).flatten)
  | [], _, m => by simp [runSharedCalls]
  | c :: rest, h, m => by
    have hc := h c (List.mem_cons_self c rest)
    rcases Option.isSome_iff_exists.mp hc with ⟨pr, hpr⟩
    have hrec := runSharedCalls_eq rest
      (fun x hx => h x (List.mem_cons_of_mem c hx))
      (m ++ tsgDelta pr c.rsid c.genotype)
    unfold runSharedCalls
    rw [tsg_append c.snpinfo c.rsid c.genotype m pr hpr]
    dsimp only
    rw [hrec]
    simp [callDelta, hpr, List.append_assoc]

/-- C10: every call of `test_and_store_genotype` that omits the
`matches` argument appends to and returns the single shared default
list: after any sequence of such calls the returned list is the
concatenation of every earlier call's contribution, and two calls with
the same index, identifier and matching genotype put the same match in
the list twice. -/
theorem shared_default_collector (calls : List TsgCall)
    (h : ∀ cc ∈ calls, (dictFind cc.snpinfo cc.rsid).isSome = true) :
    runSharedCalls calls [] = some ((calls.map callDelta).flatten)
    ∧ ∀ cc r e, dictFind cc.snpinfo cc.rsid = some (ParseResult.record r) →
        dictFind r.genotypes cc.genotype = some e →
        runSharedCalls [cc, cc] []
          = some [mkMatch r cc.rsid cc.genotype e,
                  mkMatch r cc.rsid cc.genotype e] := by
  constructor
  · simpa using runSharedCalls_eq calls h []
  · intro cc r e hpr he
    have hx : ∀ d ∈ [cc, cc], (dictFind d.snpinfo d.rsid).isSome = true := by
      intro d hd
      rcases List.mem_cons.mp hd with rfl | hd'
      · simp [hpr]
      · rcases List.mem_cons.mp hd' with rfl | hd''
        · simp [hpr]
        · cases hd''
    have h2 := runSharedCalls_eq [cc, cc] hx []
    simpa [callDelta, tsgDelta, hpr, he] using h2

/-- The record, index, match and calls used by the concrete runs below. -/
def recB : AnnotationRecord :=
  ⟨1, ("plus").data, [(("AA").data, ⟨some 1, ("v").data, ("c").data⟩)]⟩

def snpinfoB : List (List Char × ParseResult) :=
  [(("rs1").data, ParseResult.record recB)]

def callB : TsgCall := ⟨snpinfoB, ("rs1").data, ("AA").data⟩

/-- Witness for C10: two identical matching calls leave the match in the
shared list twice. -/
theorem shared_default_collector_check :
    runSharedCalls [callB, callB] []
      = some [mkMatch recB (("rs1").data) (("AA").data)
                ⟨some 1, ("v").data, ("c").data⟩,
              mkMatch recB (("rs1").data) (("AA").data)
                ⟨some 1, ("v").data, ("c").data⟩] :=
  (shared_default_collector [callB, callB] (by decide)).2 callB recB
    ⟨some 1, ("v").data, ("c").data⟩ (by decide) (by decide)

/-! ## C2: the second run is not free of network calls -/

def matchB : MatchRecord :=
  mkMatch recB (("rs1").data) (("AA").data) ⟨some 1, ("v").data, ("c").data⟩

def rsidsEnumB : List (List Char) := [("ab").data]

def fetchB : List Char → List Char := fun _ => ("x").data

def rowsB : List ObservedRow :=
  [⟨("rs1").data, ("AA").data⟩, ⟨("a").data, ("AA").data⟩]

def st1B : PipeState := ⟨snpinfoB, [], [matchB], []⟩

/-- C2 (code bug): the first run, holding the freshly enumerated
known-identifier set `{"ab"}`, fetches nothing for the observed rows
`rs1` (an index hit) and `a` (in no tier). The set is then persisted as
the newline-joined text `"ab"`, but a later run reads it back by
iterating over the file content character by character
(`for line in ziparchive.read("snpedia_rsids")`), producing the set
`{"a","b"}` — so the second run on identical input and the caches
produced by the first run issues a fetch for `a`: it is not
network-free, contradicting the intended idempotence. -/
theorem second_run_refetches :
    runPipeline rsidsEnumB fetchB rowsB snpinfoB [] = some st1B
    ∧ st1B.fetched = []
    ∧ readPersistedRsids (persistRsids rsidsEnumB) = [[('a' : Char)], [('b' : Char)]]
    ∧ runPipeline (readPersistedRsids (persistRsids rsidsEnumB)) fetchB rowsB
        st1B.snpinfo st1B.zip
        = some ⟨[(("rs1").data, ParseResult.record recB),
                 (("a").data, ParseResult.notApplicable)],
                [(("a").data, ("x").data)], [matchB], [("a").data]⟩
    ∧ ([("a").data] : List (List Char)) ≠ [] := by decide

end Snpedia
